import Mathlib

/-!
Shallow embedding of the stock-prediction demo pipeline
(`read_and_plot.py` and `plot_model.py`, in their top-level and `src/`
variants) and proofs of the spec claims about it.

Conventions of the embedding:
* A calendar date is a day number (an integer); adding 1 is the next
  calendar day, so `pd.Timedelta(days=1)` and daily `pd.date_range`
  become `+ 1` and consecutive integers.
* Machine floats are modelled by exact rationals `ℚ`.
* The file system is a map from path strings to optional file contents;
  `df.to_csv` is a pointwise update of that map.
* Code that may raise a Python exception returns `Except String α`;
  a total Lean function models code from which no exception escapes.
-/

/-- Calendar dates as day numbers: consecutive integers are consecutive
calendar days. -/
abbrev Date := ℤ

/-- Raw contents of a `Close` cell as read back from the cache file by
`pd.read_csv`: either a numeric value or text that fails numeric coercion
(producing `NaN` under `errors="coerce"`). -/
inductive CloseCell where
  | val (q : ℚ)
  | invalid
deriving DecidableEq

/-- Behaviour of `pd.to_numeric(..., errors="coerce")` on one cell: numeric
cells survive, anything unparsable becomes missing (`NaN`, here `none`). -/
def CloseCell.toNumeric : CloseCell → Option ℚ
  | .val q => some q
  | .invalid => none

/-- One data row of the cache file: the `Date` cell (already a calendar
date; `pd.to_datetime` on the written ISO date string is the identity in
this embedding) and the `Close` cell. -/
structure CsvRow where
  date : Date
  close : CloseCell
deriving DecidableEq

/-- A cache file: which of the two columns used by the pipeline are present
in the header, plus the data rows.  The other OHLC columns are written and
read back untouched and never used, so they are not modelled. -/
structure CsvFile where
  hasDateCol : Bool
  hasCloseCol : Bool
  rows : List CsvRow
deriving DecidableEq

/-- The file system: a map from paths to files. -/
def FS := String → Option CsvFile

/-- Effect of `df.to_csv(filepath)`: overwrite the file at `filepath`. -/
def FS.write (fs : FS) (p : String) (f : CsvFile) : FS :=
  fun q => if q = p then some f else fs q

/-- A file system with no files (the state before any fetch ran). -/
def fsEmpty : FS := fun _ => none

/-- Rounding of a rational to the nearest integer with ties to even, the
rounding mode of `numpy`/`pandas` `round`, in plain integer arithmetic:
`f` is the floor of `x` and `r2` twice the numerator of the fractional
part, compared against the denominator. -/
def roundHalfEven (x : ℚ) : ℤ :=
  let f := x.num.fdiv (x.den : ℤ)
  let r2 := 2 * (x.num - f * (x.den : ℤ))
  if r2 < (x.den : ℤ) then f
  else if (x.den : ℤ) < r2 then f + 1
  else if f % 2 = 0 then f else f + 1

/-- Rounding to 2 decimal places, as in `df["Close"].round(2)`. -/
def roundTo2 (q : ℚ) : ℚ := (roundHalfEven (q * 100) : ℚ) / 100

/-- One daily bar returned by the market-data provider
(`yf.download(symbol, period="1y", interval="1d", auto_adjust=True)`):
its date and its adjusted close.  The other OHLC fields play no role in
any claim and are omitted. -/
structure ProviderRow where
  date : Date
  close : ℚ
deriving DecidableEq

/-- Effect of `df.reset_index()` followed by `df.to_csv(filepath, index=False)`
on the provider result: the written cache file has the `Date` and `Close`
columns and one row per bar, with the date index flattened into the `Date`
column.  Writing and re-reading a value through CSV text is lossless, so the
written cell holds the same rational. -/
def toCsvFile (bars : List ProviderRow) : CsvFile :=
  { hasDateCol := true
    hasCloseCol := true
    rows := bars.map fun b => { date := b.date, close := CloseCell.val b.close } }

/-- Embedding of `download_and_save_data` from `src/src/read_and_plot.py`.
The provider call either raises (modelled by `Except.error`, caught by the
`try`/`except` block) or returns a list of daily bars.  An empty result or
an exception yields `(false, fs)`: failure reported, file system untouched.
Only a non-empty result is written to the cache file.  The function is
total: no exception escapes. -/
def download_and_save_data (fetch : Except String (List ProviderRow))
    (fs : FS) (filepath : String) : Bool × FS :=
  match fetch with
  | .error _ => (false, fs)
  | .ok bars =>
    if bars.isEmpty then (false, fs)
    else (true, fs.write filepath (toCsvFile bars))

/-- Embedding of `download_and_save_data` from the top-level
`src/read_and_plot.py`: this variant has no emptiness check and no
`try`/`except`, so a provider exception propagates to the caller
(`Except.error`) and an empty provider result is still written to the
cache file with success reported. -/
def download_and_save_data_v0 (fetch : Except String (List ProviderRow))
    (fs : FS) (filepath : String) : Except String (Bool × FS) :=
  match fetch with
  | .error e => .error e
  | .ok bars => .ok (true, fs.write filepath (toCsvFile bars))

/-- One row of the cleaned table produced by `read_and_process_data`:
a parsed calendar date and a numeric close.  The close field is a plain
rational, so a cleaned table can hold no null close by construction. -/
structure Row where
  date : Date
  close : ℚ
deriving DecidableEq

/-- Embedding of `read_and_process_data` (identical in both variants up to
message text).  A missing cache file yields an empty table (`.ok []`).
An existing file lacking the `Date` or `Close` column makes the
corresponding column assignment raise a `KeyError`, modelled by
`.error`.  Otherwise every row's date is parsed, the close cell is coerced
with unparsable values becoming missing, survivors are rounded to 2
decimals, rows with missing close are dropped and the rest reindexed
densely (`dropna` + `reset_index(drop=True)`), in their original order:
the code never sorts. -/
def read_and_process_data (fs : FS) (filepath : String) :
    Except String (List Row) :=
  match fs filepath with
  | none => .ok []
  | some file =>
    if file.hasDateCol = false then .error "KeyError: Date"
    else if file.hasCloseCol = false then .error "KeyError: Close"
    else .ok (file.rows.filterMap fun r =>
      match r.close.toNumeric with
      | none => none
      | some q => some { date := r.date, close := roundTo2 q })

/-- Cleaning step as the spec words it, for comparison with
`read_and_process_data`: keep exactly the rows whose close cell coerces to
a number, in their original (densely reindexed) order, with the close
rounded to 2 decimal places. -/
def cleanSpec (rows : List CsvRow) : List Row :=
  (rows.filter fun r => r.close.toNumeric.isSome).map fun r =>
    { date := r.date, close := roundTo2 (r.close.toNumeric.getD 0) }

/-- Cache path used by the concrete examples: `get_filepath("AAPL")`,
i.e. `os.path.join("data", "AAPL.csv")`. -/
def pathEx : String := "data/AAPL.csv"

/-- A concrete provider result: five trading days with the closes of the
spec's worked example. -/
def barsEx : List ProviderRow :=
  [{ date := 0, close := 10 }, { date := 1, close := 11 },
   { date := 2, close := 9 }, { date := 3, close := 12 },
   { date := 4, close := 13 }]

/-- A concrete well-formed cache file whose middle row has an unparsable
close cell. -/
def fileMixed : CsvFile :=
  { hasDateCol := true
    hasCloseCol := true
    rows := [{ date := 0, close := CloseCell.val 10 },
             { date := 1, close := CloseCell.invalid },
             { date := 2, close := CloseCell.val 20 }] }

/-- A file system holding `fileMixed` at the example path. -/
def fsMixed : FS := FS.write fsEmpty pathEx fileMixed

/-- A concrete cache file whose two valid rows are out of date order. -/
def fileUnsorted : CsvFile :=
  { hasDateCol := true
    hasCloseCol := true
    rows := [{ date := 1, close := CloseCell.val 10 },
             { date := 0, close := CloseCell.val 11 }] }

/-- A file system holding `fileUnsorted` at the example path. -/
def fsUnsorted : FS := FS.write fsEmpty pathEx fileUnsorted

/-- A concrete cache file that exists but lacks the `Close` column. -/
def fileNoClose : CsvFile :=
  { hasDateCol := true
    hasCloseCol := false
    rows := [{ date := 0, close := CloseCell.val 10 }] }

/-- A file system holding `fileNoClose` at the example path. -/
def fsNoClose : FS := FS.write fsEmpty pathEx fileNoClose

/-- Evaluation of the degree-3 model (the prediction of a fitted
`LinearRegression` on the `PolynomialFeatures(degree=3)` basis
`[1, t, t², t³]`) with coefficient vector `c` at time `t`. -/
def polyEval (c : Fin 4 → ℚ) (t : ℚ) : ℚ :=
  c 0 + c 1 * t + c 2 * t ^ 2 + c 3 * t ^ 3

/-- Sum of `t ^ k` over `n` consecutive integer time indices starting at
`t0`: an entry of the normal-equation matrix `Xᵀ X`. -/
def powSum : ℕ → ℚ → ℕ → ℚ
  | 0, _, _ => 0
  | n + 1, t0, k => t0 ^ k + powSum n (t0 + 1) k

/-- Sum of `y_i * t_i ^ k` over the closes, with consecutive integer time
indices starting at `t0`: an entry of `Xᵀ y`. -/
def dotSum : List ℚ → ℚ → ℕ → ℚ
  | [], _, _ => 0
  | y :: ys, t0, k => y * t0 ^ k + dotSum ys (t0 + 1) k

/-- Normal-equation (Gram) matrix `Xᵀ X` of the degree-3 polynomial basis
over the time indices `0, 1, ..., n - 1`. -/
def gram (n : ℕ) : Matrix (Fin 4) (Fin 4) ℚ :=
  Matrix.of fun i j => powSum n 0 (i.val + j.val)

/-- Normal-equation right-hand side `Xᵀ y` for the closes `ys`. -/
def gramRhs (ys : List ℚ) : Fin 4 → ℚ := fun j => dotSum ys 0 j.val

/-- Coefficients produced by
`LinearRegression().fit(X_poly, y)` on the degree-3 basis.  The spec
fixes only that the result is the ordinary-least-squares fit on the
exact basis `[1, t, t², t³]`; over exact rationals that fit is the
solution of the normal equations, taken here in Cramer form. -/
def fitCoeffs (ys : List ℚ) : Fin 4 → ℚ :=
  fun j => Matrix.cramer (gram ys.length) (gramRhs ys) j / (gram ys.length).det

/-- Sum of squared residuals of the coefficient vector `c` on the closes
`ys` against consecutive integer time indices starting at `t0`. -/
def sseFrom (c : Fin 4 → ℚ) : List ℚ → ℚ → ℚ
  | [], _ => 0
  | y :: ys, t0 => (y - polyEval c t0) ^ 2 + sseFrom c ys (t0 + 1)

/-- Sum of squared residuals of `c` on `ys` over time indices `0..n-1`:
the objective minimised by ordinary least squares. -/
def sse (ys : List ℚ) (c : Fin 4 → ℚ) : ℚ := sseFrom c ys 0

/-- Weighted residual sums `Σ (y_i - model(t_i)) * t_i ^ k`; the normal
equations state that these vanish for `k = 0, 1, 2, 3`. -/
def resMoment (c : Fin 4 → ℚ) : List ℚ → ℚ → ℕ → ℚ
  | [], _, _ => 0
  | y :: ys, t0, k => (y - polyEval c t0) * t0 ^ k + resMoment c ys (t0 + 1) k

/-- Sum `Σ (y_i - model(t_i)) * d(t_i)` of the residuals of `c` against a
second degree-3 polynomial `d`, the cross term of the least-squares
decomposition. -/
def crossSum (c d : Fin 4 → ℚ) : List ℚ → ℚ → ℚ
  | [], _ => 0
  | y :: ys, t0 => (y - polyEval c t0) * polyEval d t0 + crossSum c d ys (t0 + 1)

/-- Sum of `d(t)²` over `n` consecutive integer time indices starting at
`t0`, the quadratic term of the least-squares decomposition. -/
def qSum (d : Fin 4 → ℚ) : ℕ → ℚ → ℚ
  | 0, _ => 0
  | n + 1, t0 => polyEval d t0 ^ 2 + qSum d n (t0 + 1)

/-- Integer range `np.arange(a, b)`: the list `a, a + 1, ..., b - 1`. -/
def arange (a b : ℤ) : List ℤ :=
  (List.range (b - a).toNat).map fun i : ℕ => a + (i : ℤ)

/-- Daily date range `pd.date_range(start, periods=periods, freq="D")`:
`periods` consecutive calendar days starting at `start`. -/
def dateRange (start : Date) (periods : ℕ) : List Date :=
  (List.range periods).map fun i : ℕ => start + (i : ℤ)

/-- A table as passed to `plot_model`: the `Date` and `Close` columns, the
remaining CSV columns (never touched by either variant), and the `t`
column slot, absent until some code assigns `df["t"]`. -/
structure PlotDF where
  rows : List Row
  extraCols : List (String × List ℚ)
  tCol : Option (List ℤ)
deriving DecidableEq

/-- Result of a `plot_model` call, recording what the chart renderer is
given and the call's frame effect: the fitted series over history, the
future series of date/prediction pairs, and the caller's table as it
stands after the call. -/
structure PlotResult where
  fitted : List ℚ
  future : List (Date × ℚ)
  callerDf : PlotDF
deriving DecidableEq

/-- Sorting step `df.sort_values("Date").reset_index(drop=True)` of the
`src/src` variant: a stable sort by date. -/
def sortByDate (rows : List Row) : List Row :=
  rows.mergeSort fun a b => a.date ≤ b.date

/-- Embedding of `plot_model` from `src/src/plot_model.py`: sort a copy of
the table by date, fit the degree-3 regression over time indices
`0..n-1`, evaluate it over history (`y_pred`) and at
`np.arange(last_t + 1, last_t + 1 + days_ahead)` (`future_pred`), and
pair the future predictions with
`pd.date_range(last_date + 1 day, periods=days_ahead, freq="D")`.
`sort_values` rebinds a local name only, so the caller's table comes back
unchanged. -/
def plot_model (df : PlotDF) (daysAhead : ℕ) : PlotResult :=
  let sorted := sortByDate df.rows
  let n := sorted.length
  let ys := sorted.map Row.close
  let c := fitCoeffs ys
  let fitted := (arange 0 (n : ℤ)).map fun t : ℤ => polyEval c (t : ℚ)
  let lastT : ℤ := (n : ℤ) - 1
  let futureT := arange (lastT + 1) (lastT + 1 + (daysAhead : ℤ))
  let futurePred := futureT.map fun t : ℤ => polyEval c (t : ℚ)
  let lastDate := ((sorted.getLast?).map Row.date).getD 0
  let futureDates := dateRange (lastDate + 1) daysAhead
  { fitted := fitted
    future := futureDates.zip futurePred
    callerDf := df }

/-- Embedding of `plot_model` from the top-level `src/plot_model.py`: no
sort, and the assignment `df["t"] = np.arange(len(df))` mutates the
caller's table, which comes back with the `t` column added and every
other column unchanged. -/
def plot_model_v0 (df : PlotDF) (daysAhead : ℕ) : PlotResult :=
  let n := df.rows.length
  let tvals := arange 0 (n : ℤ)
  let ys := df.rows.map Row.close
  let c := fitCoeffs ys
  let fitted := tvals.map fun t : ℤ => polyEval c (t : ℚ)
  let lastT : ℤ := (n : ℤ) - 1
  let futureT := arange (lastT + 1) (lastT + 1 + (daysAhead : ℤ))
  let futurePred := futureT.map fun t : ℤ => polyEval c (t : ℚ)
  let lastDate := ((df.rows.getLast?).map Row.date).getD 0
  let futureDates := dateRange (lastDate + 1) daysAhead
  { fitted := fitted
    future := futureDates.zip futurePred
    callerDf := { df with tCol := some tvals } }

/-- A concrete cleaned five-row table with the dates and closes of the
spec's worked example. -/
def dfEx : PlotDF :=
  { rows := [{ date := 0, close := 10 }, { date := 1, close := 11 },
             { date := 2, close := 9 }, { date := 3, close := 12 },
             { date := 4, close := 13 }]
    extraCols := []
    tCol := none }

/-- Relating the code's `filterMap` cleaning pass to the spec's
filter-then-transform description. -/
theorem filterMap_clean_eq_cleanSpec (rows : List CsvRow) :
    (rows.filterMap fun r =>
      match r.close.toNumeric with
      | none => none
      | some q => some { date := r.date, close := roundTo2 q }) =
    cleanSpec rows := by
  induction rows with
  | nil => rfl
  | cons r rs ih =>
    cases h : r.close.toNumeric with
    | none => simpa [List.filterMap_cons, cleanSpec, List.filter_cons, h] using ih
    | some q => simpa [List.filterMap_cons, cleanSpec, List.filter_cons, h] using ih

/-- Shared characterisation of `read_and_process_data` on an existing,
well-formed cache file. -/
theorem read_and_process_data_eq (fs : FS) (p : String) (file : CsvFile)
    (hf : fs p = some file) (hd : file.hasDateCol = true)
    (hc : file.hasCloseCol = true) :
    read_and_process_data fs p = .ok (cleanSpec file.rows) := by
  unfold read_and_process_data
  rw [hf]
  simp [hd, hc, filterMap_clean_eq_cleanSpec]

/-- Helper: cleaning the cache file just written from a provider result
keeps every row (all closes are numeric) and rounds each close to 2
decimal places. -/
theorem cleanSpec_toCsvFile (bars : List ProviderRow) :
    cleanSpec (toCsvFile bars).rows =
      bars.map fun b => { date := b.date, close := roundTo2 b.close } := by
  induction bars with
  | nil => rfl
  | cons b bs ih =>
    simpa [toCsvFile, cleanSpec, List.filter_cons, CloseCell.toNumeric] using ih

/-- C1 (amended, for the `src/src` variant): when the provider fetch
returns zero rows or raises, `download_and_save_data` returns `false` and
leaves the file system untouched, and no exception escapes (the embedding
is a total function into `Bool × FS`); whenever it reports failure the
file system is unchanged, so the cache file is written only on success. -/
theorem download_zero_rows_fails (fs : FS) (p : String) :
    download_and_save_data (Except.ok []) fs p = (false, fs) ∧
    (∀ e, download_and_save_data (Except.error e) fs p = (false, fs)) ∧
    (∀ fetch, (download_and_save_data fetch fs p).1 = false →
      (download_and_save_data fetch fs p).2 = fs) := by
  refine ⟨rfl, fun e => rfl, fun fetch h => ?_⟩
  cases fetch with
  | error e => rfl
  | ok bars =>
    by_cases hb : bars.isEmpty
    · simp [download_and_save_data, hb]
    · simp [download_and_save_data, hb] at h

/-- Witness for C1: the amended claim instantiated at the empty file
system and the example path. -/
theorem download_zero_rows_fails_witness :
    download_and_save_data (Except.ok []) fsEmpty pathEx = (false, fsEmpty) ∧
    (∀ e, download_and_save_data (Except.error e) fsEmpty pathEx = (false, fsEmpty)) ∧
    (∀ fetch, (download_and_save_data fetch fsEmpty pathEx).1 = false →
      (download_and_save_data fetch fsEmpty pathEx).2 = fsEmpty) :=
  download_zero_rows_fails fsEmpty pathEx

/-- C1 (counterexample): in the top-level variant
(`src/read_and_plot.py`), a provider fetch that returns zero rows still
makes `download_and_save_data` report success and create the cache file:
starting from a file system with no files, it returns `true` and the
path now holds the (empty) written file, refuting the claim for that
variant. -/
theorem download_v0_zero_rows_counterexample :
    download_and_save_data_v0 (Except.ok []) fsEmpty pathEx =
      Except.ok (true, FS.write fsEmpty pathEx (toCsvFile [])) ∧
    FS.write fsEmpty pathEx (toCsvFile []) pathEx = some (toCsvFile []) ∧
    fsEmpty pathEx = none :=
  ⟨rfl, by simp [FS.write], rfl⟩

/-- C2 (counterexample): a cache file whose rows are out of date order is
returned in that same order: the dates of the cleaned table are `[1, 0]`,
which is not strictly ascending, refuting the claim that the output of
`read_and_process_data` is sorted for every existing cache file. -/
theorem read_unsorted_counterexample :
    ∃ l, read_and_process_data fsUnsorted pathEx = Except.ok l ∧
      l.map Row.date = [1, 0] ∧
      ¬ (l.map Row.date).Pairwise (fun a b => a < b) := by
  refine ⟨cleanSpec fileUnsorted.rows,
    read_and_process_data_eq fsUnsorted pathEx fileUnsorted (by simp [fsUnsorted, FS.write]) rfl rfl,
    rfl, ?_⟩
  decide

/-- C2 (amended): for every existing well-formed cache file, the cleaned
table has no null close value (its close field is a plain rational by
construction), and whenever the file rows themselves are in strictly
ascending date order the output dates are strictly ascending and unique;
the function preserves row order and performs no sort of its own. -/
theorem read_sorted_of_sorted_file (fs : FS) (p : String) (file : CsvFile)
    (hf : fs p = some file) (hd : file.hasDateCol = true)
    (hc : file.hasCloseCol = true)
    (hsorted : file.rows.Pairwise fun a b => a.date < b.date) :
    read_and_process_data fs p = Except.ok (cleanSpec file.rows) ∧
    ((cleanSpec file.rows).map Row.date).Pairwise (fun a b => a < b) ∧
    ((cleanSpec file.rows).map Row.date).Nodup := by
  have hp : ((cleanSpec file.rows).map Row.date).Pairwise (fun a b => a < b) := by
    rw [List.pairwise_map]
    unfold cleanSpec
    rw [List.pairwise_map]
    exact (hsorted.filter _).imp (fun h => h)
  refine ⟨read_and_process_data_eq fs p file hf hd hc, hp, ?_⟩
  exact hp.imp fun h => ne_of_lt h

/-- Witness for C2: the amended claim instantiated at the concrete sorted
file `fileMixed`. -/
theorem read_sorted_of_sorted_file_witness :
    read_and_process_data fsMixed pathEx = Except.ok (cleanSpec fileMixed.rows) ∧
    ((cleanSpec fileMixed.rows).map Row.date).Pairwise (fun a b => a < b) ∧
    ((cleanSpec fileMixed.rows).map Row.date).Nodup :=
  read_sorted_of_sorted_file fsMixed pathEx fileMixed
    (by simp [fsMixed, FS.write]) rfl rfl (by decide)

/-- C5: writing a non-empty provider table through
`download_and_save_data` and reading it back through
`read_and_process_data` succeeds and yields exactly the original rows
with each close value rounded to 2 decimal places. -/
theorem write_read_roundtrip (bars : List ProviderRow) (fs : FS)
    (p : String) (hne : bars ≠ []) :
    (download_and_save_data (Except.ok bars) fs p).1 = true ∧
    read_and_process_data (download_and_save_data (Except.ok bars) fs p).2 p =
      Except.ok (bars.map fun b => { date := b.date, close := roundTo2 b.close }) := by
  have hb : bars.isEmpty = false := by
    cases bars with
    | nil => exact absurd rfl hne
    | cons x xs => rfl
  have h2 : (download_and_save_data (Except.ok bars) fs p).2 =
      fs.write p (toCsvFile bars) := by
    simp [download_and_save_data, hb]
  refine ⟨by simp [download_and_save_data, hb], ?_⟩
  rw [h2, read_and_process_data_eq (fs.write p (toCsvFile bars)) p (toCsvFile bars)
    (by simp [FS.write]) rfl rfl, cleanSpec_toCsvFile]

/-- Witness for C5: the round trip at the concrete five-day provider
result `barsEx`. -/
theorem write_read_roundtrip_witness :
    (download_and_save_data (Except.ok barsEx) fsEmpty pathEx).1 = true ∧
    read_and_process_data (download_and_save_data (Except.ok barsEx) fsEmpty pathEx).2 pathEx =
      Except.ok (barsEx.map fun b => { date := b.date, close := roundTo2 b.close }) :=
  write_read_roundtrip barsEx fsEmpty pathEx (by decide)

/-- C6: when the cache file for the requested path does not exist,
`read_and_process_data` returns the empty table rather than raising
(`Except.ok []`, never `Except.error`). -/
theorem read_missing_file_empty (fs : FS) (p : String) (h : fs p = none) :
    read_and_process_data fs p = Except.ok [] := by
  unfold read_and_process_data
  rw [h]

/-- Witness for C6: the empty file system holds no file at the example
path, and reading yields the empty table. -/
theorem read_missing_file_empty_witness :
    read_and_process_data fsEmpty pathEx = Except.ok [] :=
  read_missing_file_empty fsEmpty pathEx rfl

/-- C7: for every existing well-formed cache file, the cleaned table is
exactly the rows whose close cell coerces to a number — unparsable cells
count as missing and their rows are dropped — in their original, densely
reindexed order, with each surviving close rounded to 2 decimal places
and each date parsed as a calendar date. -/
theorem read_clean_spec (fs : FS) (p : String) (file : CsvFile)
    (hf : fs p = some file) (hd : file.hasDateCol = true)
    (hc : file.hasCloseCol = true) :
    read_and_process_data fs p = Except.ok (cleanSpec file.rows) :=
  read_and_process_data_eq fs p file hf hd hc

/-- Witness for C7: reading the concrete file with an unparsable middle
cell yields its cleaned form. -/
theorem read_clean_spec_witness :
    read_and_process_data fsMixed pathEx = Except.ok (cleanSpec fileMixed.rows) :=
  read_clean_spec fsMixed pathEx fileMixed (by simp [fsMixed, FS.write]) rfl rfl

/-- C10: for every cache file that exists but lacks the `Date` or the
`Close` column, `read_and_process_data` raises (the column assignment
fails with a `KeyError`) instead of returning an empty table: the
fail-soft empty-table path is reserved for an absent file. -/
theorem read_missing_column_raises (fs : FS) (p : String) (file : CsvFile)
    (hf : fs p = some file)
    (h : file.hasDateCol = false ∨ file.hasCloseCol = false) :
    ∃ e, read_and_process_data fs p = Except.error e := by
  unfold read_and_process_data
  rw [hf]
  rcases h with h | h
  · exact ⟨"KeyError: Date", by simp [h]⟩
  · by_cases hd : file.hasDateCol = false
    · exact ⟨"KeyError: Date", by simp [hd]⟩
    · exact ⟨"KeyError: Close", by simp [hd, h]⟩

/-- Witness for C10: the concrete file lacking the `Close` column makes
the read raise. -/
theorem read_missing_column_raises_witness :
    ∃ e, read_and_process_data fsNoClose pathEx = Except.error e :=
  read_missing_column_raises fsNoClose pathEx fileNoClose
    (by simp [fsNoClose, FS.write]) (Or.inr rfl)

/-- Helper: `np.arange(a, a + k)` is the list of the `k` consecutive
integers starting at `a`. -/
theorem arange_add (a : ℤ) (k : ℕ) :
    arange a (a + (k : ℤ)) = (List.range k).map fun i : ℕ => a + (i : ℤ) := by
  have h : (a + (k : ℤ) - a).toNat = k := by omega
  rw [arange, h]

/-- Helper: sorting does not change the number of rows. -/
theorem sortByDate_length (rows : List Row) :
    (sortByDate rows).length = rows.length := by
  simp [sortByDate]

/-- Helper: closed form of the future series of `plot_model`. -/
theorem plot_model_future_eq (df : PlotDF) (k : ℕ) :
    (plot_model df k).future = (List.range k).map fun i : ℕ =>
      ((((sortByDate df.rows).getLast?).map Row.date).getD 0 + 1 + (i : ℤ),
        polyEval (fitCoeffs ((sortByDate df.rows).map Row.close))
          ((df.rows.length : ℚ) + (i : ℚ))) := by
  show (dateRange ((((sortByDate df.rows).getLast?).map Row.date).getD 0 + 1) k).zip
      ((arange (((sortByDate df.rows).length : ℤ) - 1 + 1)
        (((sortByDate df.rows).length : ℤ) - 1 + 1 + (k : ℤ))).map fun t : ℤ =>
          polyEval (fitCoeffs ((sortByDate df.rows).map Row.close)) (t : ℚ)) = _
  rw [show (((sortByDate df.rows).length : ℤ) - 1 + 1) =
    ((sortByDate df.rows).length : ℤ) by ring]
  rw [arange_add, dateRange, List.map_map, List.zip_map']
  refine List.map_congr_left fun i hi => ?_
  have hc : ((((sortByDate df.rows).length : ℤ) + (i : ℤ) : ℤ) : ℚ) =
      ((df.rows.length : ℚ) + (i : ℚ)) := by
    rw [sortByDate_length]
    push_cast
    ring
  simp [Function.comp, hc]

/-- C3: for every non-empty cleaned table and positive horizon `k`, the
future series of `plot_model` has exactly `k` entries, and its `i`-th
entry pairs the calendar date `last_date + 1 + i` with the model
evaluated at time index `n + i` (`i = 0, ..., k - 1`): the dates are the
`k` consecutive calendar days following the last date of the table —
every calendar day, not only trading days — and the predictions are the
model at time indices `n, ..., n + k - 1`. -/
theorem plot_model_future_spec (df : PlotDF) (k : ℕ)
    (_hne : df.rows ≠ []) (_hk : 0 < k) :
    (plot_model df k).future.length = k ∧
    (plot_model df k).future = (List.range k).map fun i : ℕ =>
      ((((sortByDate df.rows).getLast?).map Row.date).getD 0 + 1 + (i : ℤ),
        polyEval (fitCoeffs ((sortByDate df.rows).map Row.close))
          ((df.rows.length : ℚ) + (i : ℚ))) := by
  refine ⟨?_, plot_model_future_eq df k⟩
  rw [plot_model_future_eq df k, List.length_map, List.length_range]

/-- Witness for C3: the future series of the concrete five-row table at
horizon 3. -/
theorem plot_model_future_spec_witness :
    (plot_model dfEx 3).future.length = 3 ∧
    (plot_model dfEx 3).future = (List.range 3).map fun i : ℕ =>
      ((((sortByDate dfEx.rows).getLast?).map Row.date).getD 0 + 1 + (i : ℤ),
        polyEval (fitCoeffs ((sortByDate dfEx.rows).map Row.close))
          ((dfEx.rows.length : ℚ) + (i : ℚ))) :=
  plot_model_future_spec dfEx 3 (by decide) (by decide)

/-- C8: the fit-and-extrapolate step is a deterministic function of its
inputs: any two runs of `plot_model` on the same table and horizon
return identical fitted and future series. -/
theorem plot_model_deterministic (df : PlotDF) (k : ℕ)
    (r₁ r₂ : PlotResult) (h₁ : r₁ = plot_model df k)
    (h₂ : r₂ = plot_model df k) :
    r₁.fitted = r₂.fitted ∧ r₁.future = r₂.future := by
  subst h₁
  subst h₂
  exact ⟨rfl, rfl⟩

/-- Witness for C8: two runs on the concrete five-row table agree. -/
theorem plot_model_deterministic_witness :
    (plot_model dfEx 3).fitted = (plot_model dfEx 3).fitted ∧
    (plot_model dfEx 3).future = (plot_model dfEx 3).future :=
  plot_model_deterministic dfEx 3 (plot_model dfEx 3) (plot_model dfEx 3) rfl rfl

/-- C9: `plot_model` from the top-level `src/plot_model.py` hands the
caller's table back with a `t` column holding `0..n-1` added and the
`Date`, `Close` and every other pre-existing column unchanged, while the
`src/src` variant hands the caller's table back entirely unchanged. -/
theorem plot_model_frame_effect (df : PlotDF) (k : ℕ) :
    (plot_model_v0 df k).callerDf.rows = df.rows ∧
    (plot_model_v0 df k).callerDf.extraCols = df.extraCols ∧
    (plot_model_v0 df k).callerDf.tCol = some (arange 0 (df.rows.length : ℤ)) ∧
    (plot_model df k).callerDf = df :=
  ⟨rfl, rfl, rfl, rfl⟩

/-- Helper: difference of the models of two coefficient vectors is the
model of the componentwise difference. -/
theorem polyEval_sub (c c' : Fin 4 → ℚ) (t : ℚ) :
    polyEval (fun j => c j - c' j) t = polyEval c t - polyEval c' t := by
  simp only [polyEval]
  ring

/-- Helper: least-squares decomposition of the objective at `c'` around
`c`: the squared error of `c'` is that of `c` plus twice the cross term
plus the quadratic term of the difference. -/
theorem sseFrom_decomp (c c' : Fin 4 → ℚ) (ys : List ℚ) :
    ∀ t0 : ℚ, sseFrom c' ys t0 =
      sseFrom c ys t0 + 2 * crossSum c (fun j => c j - c' j) ys t0 +
        qSum (fun j => c j - c' j) ys.length t0 := by
  induction ys with
  | nil => intro t0; simp [sseFrom, crossSum, qSum]
  | cons y ys ih =>
    intro t0
    simp only [sseFrom, crossSum, List.length_cons, qSum]
    rw [ih (t0 + 1), polyEval_sub]
    ring

/-- Helper: the cross term is a linear combination of the four weighted
residual sums of the normal equations. -/
theorem crossSum_eq_resMoment (c d : Fin 4 → ℚ) (ys : List ℚ) :
    ∀ t0 : ℚ, crossSum c d ys t0 =
      d 0 * resMoment c ys t0 0 + d 1 * resMoment c ys t0 1 +
      d 2 * resMoment c ys t0 2 + d 3 * resMoment c ys t0 3 := by
  induction ys with
  | nil => intro t0; simp [crossSum, resMoment]
  | cons y ys ih =>
    intro t0
    simp only [crossSum, resMoment]
    rw [ih (t0 + 1)]
    simp only [polyEval]
    ring

/-- Helper: the quadratic term of the decomposition is nonnegative. -/
theorem qSum_nonneg (d : Fin 4 → ℚ) : ∀ (n : ℕ) (t0 : ℚ), 0 ≤ qSum d n t0 := by
  intro n
  induction n with
  | zero => intro t0; simp [qSum]
  | succ n ih =>
    intro t0
    simp only [qSum]
    have := sq_nonneg (polyEval d t0)
    have := ih (t0 + 1)
    linarith

/-- Helper: a vanishing quadratic term forces the difference model to
vanish at every one of the `n` time indices. -/
theorem qSum_zero_eval (d : Fin 4 → ℚ) :
    ∀ (n : ℕ) (t0 : ℚ), qSum d n t0 = 0 →
      ∀ i : ℕ, i < n → polyEval d (t0 + (i : ℚ)) = 0 := by
  intro n
  induction n with
  | zero => intro t0 h i hi; omega
  | succ n ih =>
    intro t0 h i hi
    have hsq := sq_nonneg (polyEval d t0)
    have hrest := qSum_nonneg d n (t0 + 1)
    simp only [qSum] at h
    have h1 : polyEval d t0 ^ 2 = 0 := by linarith
    have h2 : qSum d n (t0 + 1) = 0 := by linarith
    cases i with
    | zero => simpa using pow_eq_zero_iff (n := 2) (by omega) |>.mp h1
    | succ i =>
      have := ih (t0 + 1) h2 i (by omega)
      have hcast : t0 + 1 + (i : ℚ) = t0 + ((i + 1 : ℕ) : ℚ) := by
        push_cast
        ring
      rwa [hcast] at this

/-- Helper: the weighted residual sum in terms of the moment sums of the
normal-equation system. -/
theorem resMoment_eq (c : Fin 4 → ℚ) (ys : List ℚ) :
    ∀ (t0 : ℚ) (k : ℕ), resMoment c ys t0 k =
      dotSum ys t0 k -
        (c 0 * powSum ys.length t0 k + c 1 * powSum ys.length t0 (k + 1) +
         c 2 * powSum ys.length t0 (k + 2) + c 3 * powSum ys.length t0 (k + 3)) := by
  induction ys with
  | nil => intro t0 k; simp [resMoment, dotSum, powSum]
  | cons y ys ih =>
    intro t0 k
    simp only [resMoment, dotSum, List.length_cons, powSum]
    rw [ih (t0 + 1) k]
    simp only [polyEval, pow_succ, pow_zero]
    ring

/-- Helper: the quadratic term expanded over the moment sums, with the
coefficients of `(w0 + w1 t + w2 t² + w3 t³)²` collected by power. -/
theorem qSum_as_moments (w : Fin 4 → ℚ) :
    ∀ (n : ℕ) (t0 : ℚ), qSum w n t0 =
      w 0 * w 0 * powSum n t0 0 + 2 * (w 0 * w 1) * powSum n t0 1 +
      (2 * (w 0 * w 2) + w 1 * w 1) * powSum n t0 2 +
      (2 * (w 0 * w 3) + 2 * (w 1 * w 2)) * powSum n t0 3 +
      (2 * (w 1 * w 3) + w 2 * w 2) * powSum n t0 4 +
      2 * (w 2 * w 3) * powSum n t0 5 + w 3 * w 3 * powSum n t0 6 := by
  intro n
  induction n with
  | zero => intro t0; simp [qSum, powSum]
  | succ n ih =>
    intro t0
    simp only [qSum, powSum]
    rw [ih (t0 + 1)]
    simp only [polyEval]
    ring

/-- Helper: the normal-equation matrix of at least four time indices is
nonsingular: a kernel vector would be a cubic vanishing at the four
distinct indices `0, 1, 2, 3`, hence zero. -/
theorem gram_det_ne_zero (n : ℕ) (h4 : 4 ≤ n) : (gram n).det ≠ 0 := by
  intro hdet
  obtain ⟨w, hw, hmv⟩ := (Matrix.exists_mulVec_eq_zero_iff).mpr hdet
  have h0 := congrFun hmv 0
  have h1 := congrFun hmv 1
  have h2 := congrFun hmv 2
  have h3 := congrFun hmv 3
  simp [Matrix.mulVec, Matrix.dotProduct, Fin.sum_univ_four, gram,
    Matrix.of_apply, show ((3 : Fin 4) : ℕ) = 3 from rfl] at h0 h1 h2 h3
  have hq : qSum w n 0 = 0 := by
    rw [qSum_as_moments]
    linear_combination w 0 * h0 + w 1 * h1 + w 2 * h2 + w 3 * h3
  have e0 := qSum_zero_eval w n 0 hq 0 (by omega)
  have e1 := qSum_zero_eval w n 0 hq 1 (by omega)
  have e2 := qSum_zero_eval w n 0 hq 2 (by omega)
  have e3 := qSum_zero_eval w n 0 hq 3 (by omega)
  simp only [polyEval] at e0 e1 e2 e3
  norm_num at e0 e1 e2 e3
  apply hw
  funext j
  fin_cases j
  · simpa using e0
  · show w 1 = 0
    linarith
  · show w 2 = 0
    linarith
  · show w 3 = 0
    linarith

/-- Helper: with at least four rows the Cramer-form coefficients satisfy
the normal equations `Xᵀ X c = Xᵀ y` exactly. -/
theorem fitCoeffs_normal (ys : List ℚ) (h4 : 4 ≤ ys.length) :
    (gram ys.length).mulVec (fitCoeffs ys) = gramRhs ys := by
  have hdet := gram_det_ne_zero ys.length h4
  have hc : fitCoeffs ys = ((gram ys.length).det)⁻¹ •
      Matrix.cramer (gram ys.length) (gramRhs ys) := by
    funext j
    simp [fitCoeffs, Pi.smul_apply, smul_eq_mul, div_eq_inv_mul]
  rw [hc, Matrix.mulVec_smul, Matrix.mulVec_cramer, smul_smul,
    inv_mul_cancel₀ hdet, one_smul]

/-- Helper: the normal equations make all four weighted residual sums
vanish. -/
theorem resMoment_zero_of_normal (ys : List ℚ) (c : Fin 4 → ℚ)
    (h : (gram ys.length).mulVec c = gramRhs ys) :
    resMoment c ys 0 0 = 0 ∧ resMoment c ys 0 1 = 0 ∧
    resMoment c ys 0 2 = 0 ∧ resMoment c ys 0 3 = 0 := by
  have h0 := congrFun h 0
  have h1 := congrFun h 1
  have h2 := congrFun h 2
  have h3 := congrFun h 3
  simp [Matrix.mulVec, Matrix.dotProduct, Fin.sum_univ_four, gram, gramRhs,
    Matrix.of_apply, show ((3 : Fin 4) : ℕ) = 3 from rfl] at h0 h1 h2 h3
  refine ⟨?_, ?_, ?_, ?_⟩ <;> rw [resMoment_eq] <;> norm_num <;> linarith

/-- Helper: a coefficient vector satisfying the normal equations
minimises the sum of squared errors over all degree-3 coefficient
vectors. -/
theorem sse_min_of_normal (ys : List ℚ) (c : Fin 4 → ℚ)
    (h : (gram ys.length).mulVec c = gramRhs ys) (c' : Fin 4 → ℚ) :
    sse ys c ≤ sse ys c' := by
  obtain ⟨h0, h1, h2, h3⟩ := resMoment_zero_of_normal ys c h
  have hd := sseFrom_decomp c c' ys 0
  have hcross := crossSum_eq_resMoment c (fun j => c j - c' j) ys 0
  have hq := qSum_nonneg (fun j => c j - c' j) ys.length 0
  unfold sse
  rw [hd, hcross, h0, h1, h2, h3]
  nlinarith [hq]

/-- Helper: any coefficient vector that does at least as well as a
normal-equation solution produces the same fitted value at every
historical time index. -/
theorem fitted_unique_of_min (ys : List ℚ) (c c' : Fin 4 → ℚ)
    (h : (gram ys.length).mulVec c = gramRhs ys)
    (hmin : sse ys c' ≤ sse ys c) :
    ∀ i : ℕ, i < ys.length → polyEval c' (i : ℚ) = polyEval c (i : ℚ) := by
  obtain ⟨h0, h1, h2, h3⟩ := resMoment_zero_of_normal ys c h
  have hd := sseFrom_decomp c c' ys 0
  have hcross := crossSum_eq_resMoment c (fun j => c j - c' j) ys 0
  have hq := qSum_nonneg (fun j => c j - c' j) ys.length 0
  rw [hcross, h0, h1, h2, h3] at hd
  have hzero : qSum (fun j => c j - c' j) ys.length 0 = 0 := by
    unfold sse at hmin
    nlinarith [hd, hmin, hq]
  intro i hi
  have := qSum_zero_eval (fun j => c j - c' j) ys.length 0 hzero i hi
  rw [polyEval_sub] at this
  simp only [zero_add] at this
  linarith

/-- Helper: closed form of the fitted series of `plot_model`: the model
of the Cramer coefficients evaluated at each historical time index, in
table order. -/
theorem plot_model_fitted_eq (df : PlotDF) (k : ℕ) :
    (plot_model df k).fitted = (List.range df.rows.length).map fun i : ℕ =>
      polyEval (fitCoeffs ((sortByDate df.rows).map Row.close)) (i : ℚ) := by
  show (arange 0 (((sortByDate df.rows).length : ℤ))).map (fun t : ℤ =>
    polyEval (fitCoeffs ((sortByDate df.rows).map Row.close)) (t : ℚ)) = _
  rw [show (((sortByDate df.rows).length : ℤ)) = 0 + (((sortByDate df.rows).length : ℤ)) by ring]
  rw [arange_add, List.map_map, sortByDate_length]
  refine List.map_congr_left fun i hi => ?_
  simp [Function.comp]

/-- C4: for every table with at least four rows (the spec leaves fewer
rows unspecified), the fitted series of `plot_model` is the
ordinary-least-squares regression of the closes on the exact degree-3
basis `[1, t, t², t³]` over time indices `0..n-1`, evaluated at each
historical time index, with the same length and order as the table:
there is a coefficient vector that the fitted series evaluates, it
minimises the sum of squared errors over all degree-3 coefficient
vectors, and any other minimiser yields the same fitted values. -/
theorem plot_model_fitted_is_ols (df : PlotDF) (k : ℕ)
    (h4 : 4 ≤ df.rows.length) :
    ∃ c : Fin 4 → ℚ,
      (plot_model df k).fitted =
        (List.range df.rows.length).map (fun i : ℕ => polyEval c (i : ℚ)) ∧
      (plot_model df k).fitted.length = df.rows.length ∧
      (∀ c' : Fin 4 → ℚ, sse ((sortByDate df.rows).map Row.close) c ≤
        sse ((sortByDate df.rows).map Row.close) c') ∧
      (∀ c' : Fin 4 → ℚ, sse ((sortByDate df.rows).map Row.close) c' ≤
        sse ((sortByDate df.rows).map Row.close) c →
        ∀ i : ℕ, i < df.rows.length → polyEval c' (i : ℚ) = polyEval c (i : ℚ)) := by
  have hlen : ((sortByDate df.rows).map Row.close).length = df.rows.length := by
    rw [List.length_map, sortByDate_length]
  have h4y : 4 ≤ ((sortByDate df.rows).map Row.close).length := by omega
  have hnormal := fitCoeffs_normal ((sortByDate df.rows).map Row.close) h4y
  refine ⟨fitCoeffs ((sortByDate df.rows).map Row.close),
    plot_model_fitted_eq df k, ?_, ?_, ?_⟩
  · rw [plot_model_fitted_eq df k, List.length_map, List.length_range]
  · exact sse_min_of_normal _ _ hnormal
  · intro c' hmin i hi
    exact fitted_unique_of_min _ _ c' hnormal hmin i (by omega)

/-- Witness for C4: the ordinary-least-squares characterisation at the
concrete five-row table. -/
theorem plot_model_fitted_is_ols_witness :
    ∃ c : Fin 4 → ℚ,
      (plot_model dfEx 3).fitted =
        (List.range dfEx.rows.length).map (fun i : ℕ => polyEval c (i : ℚ)) ∧
      (plot_model dfEx 3).fitted.length = dfEx.rows.length ∧
      (∀ c' : Fin 4 → ℚ, sse ((sortByDate dfEx.rows).map Row.close) c ≤
        sse ((sortByDate dfEx.rows).map Row.close) c') ∧
      (∀ c' : Fin 4 → ℚ, sse ((sortByDate dfEx.rows).map Row.close) c' ≤
        sse ((sortByDate dfEx.rows).map Row.close) c →
        ∀ i : ℕ, i < dfEx.rows.length → polyEval c' (i : ℚ) = polyEval c (i : ℚ)) :=
  plot_model_fitted_is_ols dfEx 3 (by decide)
